import Mathlib

/-!
Verification of the pylinky core: token scope resolution (client.py) and
response-to-model mapping (models.py), shallowly embedded in Lean.
-/

namespace PyLinky

/-- A JSON-like Python value, as a decoded JWT payload's subject claim can hold.
JSON objects are not needed by any claim: for the one place a shape test occurs
(`_extract_prms`), a truthy object behaves like `vInt 1` and an empty object like
`vInt 0`, so those branches are already covered. -/
inductive PyValue where
  | vNone
  | vBool (b : Bool)
  | vInt (n : Int)
  | vStr (s : String)
  | vList (l : List PyValue)

/-- Python truthiness (`if not sub:` in `_extract_prms`). -/
def truthy : PyValue → Bool
  | .vNone => false
  | .vBool b => b
  | .vInt n => !(n == 0)
  | .vStr s => !(s == "")
  | .vList l => !l.isEmpty

/-- A JWT token, abstracted to what `_extract_prms` inspects: whether
`jwt.decode` succeeds, and the value of `payload.get("sub")` (`vNone` both when
the claim is absent and when it is JSON null, exactly as `dict.get` returns
`None` in both cases). -/
structure Token where
  decodable : Bool
  sub : PyValue

/-- The four `InvalidTokenError` sites of `_extract_prms`, distinguished by
their messages in the source. -/
inductive TokenError where
  | cannotDecode
  | noSubClaim
  | badSubShape
  | noPRMs

/-- Final guard of `_extract_prms` (lines 61-62): `if not prms: raise ...`. -/
def finishPrms (prms : List PyValue) : Except TokenError (List PyValue) :=
  if prms.isEmpty then .error .noPRMs else .ok prms

/-- `_extract_prms` from client.py. -/
def extractPrms (t : Token) : Except TokenError (List PyValue) :=
  if t.decodable = false then .error .cannotDecode
  else if truthy t.sub = false then .error .noSubClaim
  else
    match t.sub with
    | .vStr s => finishPrms [.vStr s]
    | .vList l => finishPrms l
    | _ => .error .badSubShape

/-- Python `needle in list` for a string needle: a `str` compares equal only to
an equal `str`, so membership is a scan for an equal `vStr`. -/
def listContainsStr (l : List PyValue) (p : String) : Bool :=
  l.any fun v => match v with | .vStr t => t == p | _ => false

/-- The scope-relevant state a `LinkyClient` holds after `__init__`:
`self._prms` and `self._prm`. -/
structure ClientState where
  prms : List PyValue
  prm : PyValue

/-- Errors `LinkyClient.__init__` can raise. -/
inductive ClientError where
  | invalidToken (e : TokenError)
  | prmAccess (prm : String)

/-- `LinkyClient.__init__` (lines 120-127): extract the PRMs, then either check
the explicitly requested PRM for membership or default to `self._prms[0]`.
The list is provably non-empty when reached (see `extractPrms_ok_ne_nil`), so
the index-0 access is modelled by `headD`. -/
def mkLinkyClient (t : Token) (prmArg : Option String) : Except ClientError ClientState :=
  match extractPrms t with
  | .error e => .error (.invalidToken e)
  | .ok prms =>
    match prmArg with
    | some p =>
      if listContainsStr prms p then .ok ⟨prms, .vStr p⟩
      else .error (.prmAccess p)
    | none => .ok ⟨prms, prms.headD .vNone⟩

/-- The original claim's failure condition for scope resolution, verbatim:
decode failure, absent subject claim, a value that is neither a string nor a
sequence of strings, or an empty sequence. -/
def tokenInvalidStatedB (t : Token) : Bool :=
  !t.decodable
    || (match t.sub with | .vNone => true | _ => false)
    || (match t.sub with
        | .vStr _ => false
        | .vList l => !(l.all fun v => match v with | .vStr _ => true | _ => false)
        | _ => true)
    || (match t.sub with | .vList [] => true | _ => false)

/-- The amended failure condition: decode failure, a subject claim that is
absent or Python-falsy (empty string, empty sequence, zero, false), or a truthy
subject that is neither a string nor a list (whatever the list's elements). -/
def tokenInvalidB (t : Token) : Bool :=
  !t.decodable
    || (match t.sub with
        | .vNone => true
        | .vBool b => !b
        | .vInt n => n == 0
        | .vStr s => s == ""
        | .vList l => l.isEmpty)
    || (match t.sub with | .vStr _ => false | .vList _ => false | _ => true)

/-! ## Date and number parsing (stdlib collaborators used by models.py)

`datetime.date.fromisoformat` / `datetime.datetime.fromisoformat` are modelled
on the dashed calendar formats the API and spec use (`YYYY-MM-DD`, optionally
followed by `THH:MM` or `THH:MM:SS`); compact/week-date/fractional/timezone
inputs of the stdlib parsers are outside the model. `int(...)` is modelled as
optional surrounding spaces, an optional sign, and a non-empty digit run. -/

structure PyDate where
  year : Nat
  month : Nat
  day : Nat
deriving DecidableEq, Repr

structure PyDateTime where
  year : Nat
  month : Nat
  day : Nat
  hour : Nat
  minute : Nat
  second : Nat
deriving DecidableEq, Repr

/-- `date | datetime`, the type of `IntervalReading.date`. -/
inductive DateOrDateTime where
  | onDate (d : PyDate)
  | onDateTime (t : PyDateTime)
deriving DecidableEq, Repr

def isLeapYear (y : Nat) : Bool :=
  (y % 4 == 0 && y % 100 != 0) || (y % 400 == 0)

def daysInMonth (y m : Nat) : Nat :=
  if m == 2 then (if isLeapYear y then 29 else 28)
  else if m == 4 || m == 6 || m == 9 || m == 11 then 30
  else 31

def charVal (c : Char) : Nat := c.toNat - 48

def mkValidDate (y m d : Nat) : Option PyDate :=
  if 1 ≤ y && y ≤ 9999 && 1 ≤ m && m ≤ 12 && 1 ≤ d && d ≤ daysInMonth y m then
    some ⟨y, m, d⟩
  else none

def mkValidTime (h mi s : Nat) : Option (Nat × Nat × Nat) :=
  if h ≤ 23 && mi ≤ 59 && s ≤ 59 then some (h, mi, s) else none

/-- `datetime.date.fromisoformat` on `YYYY-MM-DD`. -/
def parseDateChars : List Char → Option PyDate
  | [a, b, c, d, hy1, e, f, hy2, g, h] =>
    if hy1 == '-' && hy2 == '-' && ([a, b, c, d, e, f, g, h].all Char.isDigit) then
      mkValidDate (charVal a * 1000 + charVal b * 100 + charVal c * 10 + charVal d)
        (charVal e * 10 + charVal f) (charVal g * 10 + charVal h)
    else none
  | _ => none

def parseTimeChars : List Char → Option (Nat × Nat × Nat)
  | [h1, h2, c1, m1, m2] =>
    if c1 == ':' && ([h1, h2, m1, m2].all Char.isDigit) then
      mkValidTime (charVal h1 * 10 + charVal h2) (charVal m1 * 10 + charVal m2) 0
    else none
  | [h1, h2, c1, m1, m2, c2, s1, s2] =>
    if c1 == ':' && c2 == ':' && ([h1, h2, m1, m2, s1, s2].all Char.isDigit) then
      mkValidTime (charVal h1 * 10 + charVal h2) (charVal m1 * 10 + charVal m2)
        (charVal s1 * 10 + charVal s2)
    else none
  | _ => none

/-- `datetime.datetime.fromisoformat` on `YYYY-MM-DDTHH:MM[:SS]`. -/
def parseDateTimeChars (cs : List Char) : Option PyDateTime :=
  match cs with
  | a :: b :: c :: d :: hy1 :: e :: f :: hy2 :: g :: h :: sep :: rest =>
    if sep == 'T' then
      match parseDateChars [a, b, c, d, hy1, e, f, hy2, g, h], parseTimeChars rest with
      | some dt, some (hh, mm, ss) => some ⟨dt.year, dt.month, dt.day, hh, mm, ss⟩
      | _, _ => none
    else none
  | _ => none

def pyDateFromIso (s : String) : Option PyDate := parseDateChars s.toList

def digitsToNat (cs : List Char) : Option Nat :=
  if cs.isEmpty then none
  else if cs.all Char.isDigit then
    some (cs.foldl (fun acc c => acc * 10 + charVal c) 0)
  else none

/-- Python `int(s)` for a string: optional surrounding whitespace (spaces in the
model), optional sign, non-empty digit run. -/
def pyInt (s : String) : Option Int :=
  let cs := ((s.toList.dropWhile (· == ' ')).reverse.dropWhile (· == ' ')).reverse
  match cs with
  | '-' :: rest => (digitsToNat rest).map (fun n => -(n : Int))
  | '+' :: rest => (digitsToNat rest).map (fun n => (n : Int))
  | _ => (digitsToNat cs).map (fun n => (n : Int))

/-- The `date` parsing branch of `IntervalReading.from_dict` (lines 47-55):
`if "T" in date_str or " " in date_str:` parse `date_str.replace(" ", "T")` as a
datetime, else parse as a date. `replace(" ", "T")` over a single-character
needle is a character map. -/
def parseIntervalDate (s : String) : Option DateOrDateTime :=
  if s.toList.contains 'T' || s.toList.contains ' ' then
    (parseDateTimeChars (s.toList.map fun c => if c == ' ' then 'T' else c)).map
      .onDateTime
  else
    (parseDateChars s.toList).map .onDate

/-! ## Data model (models.py) -/

/-- `MeasurementKind(str, Enum)`. -/
inductive MeasurementKind where
  | energy
  | power
deriving DecidableEq, Repr

/-- The `MeasurementKind(value)` enum constructor: unrecognized values raise. -/
def MeasurementKind.fromStr : String → Option MeasurementKind
  | "energy" => some .energy
  | "power" => some .power
  | _ => none

/-- `Aggregate(str, Enum)`. -/
inductive Aggregate where
  | sum
  | average
  | maximum
deriving DecidableEq, Repr

/-- The `Aggregate(value)` enum constructor: unrecognized values raise. -/
def Aggregate.fromStr : String → Option Aggregate
  | "sum" => some .sum
  | "average" => some .average
  | "maximum" => some .maximum
  | _ => none

/-- `ReadingType` dataclass. -/
structure ReadingType where
  unit : String
  measurement_kind : MeasurementKind
  aggregate : Aggregate
  measuring_period : Option String
deriving DecidableEq, Repr

/-- `IntervalReading` dataclass. -/
structure IntervalReading where
  value : Int
  date : DateOrDateTime
  interval_length : Option String
  measure_type : Option String
deriving DecidableEq, Repr

/-- `MeteringData` dataclass. -/
structure MeteringData where
  usage_point_id : String
  start : PyDate
  «end» : PyDate
  quality : String
  reading_type : ReadingType
  interval_reading : List IntervalReading
deriving DecidableEq, Repr

/-! ## Raw payloads

The JSON dictionaries `from_dict` receives, with every key optional (`none`
models an absent key) and leaf values as the strings the wire format carries. -/

structure RawReadingType where
  unit : Option String
  measurement_kind : Option String
  aggregate : Option String
  measuring_period : Option String

structure RawReading where
  value : Option String
  date : Option String
  interval_length : Option String
  measure_type : Option String

structure RawPayload where
  usage_point_id : Option String
  start : Option String
  «end» : Option String
  quality : Option String
  reading_type : Option RawReadingType
  interval_reading : Option (List RawReading)

/-- The schema errors `from_dict` can raise: `KeyError` on `data[k]` for a
missing key, `ValueError` from date parsing, `int(...)`, or an enum
constructor. All are `MalformedResponse` conditions in the spec's taxonomy. -/
inductive MapError where
  | missingKey (k : String)
  | badDate (s : String)
  | badInt (s : String)
  | badEnum (s : String)
deriving DecidableEq, Repr

/-- Python `data[k]`: the value when present, `KeyError` otherwise. -/
def require {α : Type} (o : Option α) (k : String) : Except MapError α :=
  match o with
  | some a => Except.ok a
  | none => Except.error (MapError.missingKey k)

/-- `IntervalReading.from_dict` (models.py lines 43-62): read `data["date"]`,
parse it by the dual date/datetime rule, then `int(data["value"])`, then build
the record with pass-through optional fields. -/
def IntervalReading.fromDict (r : RawReading) : Except MapError IntervalReading :=
  match require r.date "date" with
  | .error e => .error e
  | .ok dateStr =>
    match parseIntervalDate dateStr with
    | none => .error (.badDate dateStr)
    | some parsed =>
      match require r.value "value" with
      | .error e => .error e
      | .ok valStr =>
        match pyInt valStr with
        | none => .error (.badInt valStr)
        | some v => .ok ⟨v, parsed, r.interval_length, r.measure_type⟩

/-- Eager mapping of `tuple(IntervalReading.from_dict(r) for r in ...)`: the
first failing entry aborts the whole construction. -/
def mapExcept {α β ε : Type} (f : α → Except ε β) : List α → Except ε (List β)
  | [] => .ok []
  | a :: as =>
    match f a with
    | .error e => .error e
    | .ok b =>
      match mapExcept f as with
      | .error e => .error e
      | .ok bs => .ok (b :: bs)

/-- The `reading_type` block of `MeteringData.from_dict` (lines 79-85). -/
def getReadingType (rt : RawReadingType) : Except MapError ReadingType :=
  match require rt.unit "unit" with
  | .error e => .error e
  | .ok u =>
    match require rt.measurement_kind "measurement_kind" with
    | .error e => .error e
    | .ok mkStr =>
      match MeasurementKind.fromStr mkStr with
      | none => .error (.badEnum mkStr)
      | some mk =>
        match require rt.aggregate "aggregate" with
        | .error e => .error e
        | .ok agStr =>
          match Aggregate.fromStr agStr with
          | none => .error (.badEnum agStr)
          | some ag => .ok ⟨u, mk, ag, rt.measuring_period⟩

/-- `MeteringData.from_dict` (lines 76-98), in the source's evaluation order:
the `reading_type` block, then the readings tuple over
`data.get("interval_reading", [])`, then the remaining required fields. -/
def MeteringData.fromDict (p : RawPayload) : Except MapError MeteringData :=
  match require p.reading_type "reading_type" with
  | .error e => .error e
  | .ok rtd =>
    match getReadingType rtd with
    | .error e => .error e
    | .ok rt =>
      match mapExcept IntervalReading.fromDict (p.interval_reading.getD []) with
      | .error e => .error e
      | .ok readings =>
        match require p.usage_point_id "usage_point_id" with
        | .error e => .error e
        | .ok upid =>
          match require p.start "start" with
          | .error e => .error e
          | .ok startStr =>
            match pyDateFromIso startStr with
            | none => .error (.badDate startStr)
            | some startD =>
              match require p.«end» "end" with
              | .error e => .error e
              | .ok endStr =>
                match pyDateFromIso endStr with
                | none => .error (.badDate endStr)
                | some endD =>
                  match require p.quality "quality" with
                  | .error e => .error e
                  | .ok q => .ok ⟨upid, startD, endD, q, rt, readings⟩

/-- `MeteringData.total` (lines 100-103): `sum(r.value for r in ...)`. -/
def MeteringData.total (m : MeteringData) : Int :=
  (m.interval_reading.map IntervalReading.value).sum

/-- `MeteringData.average` (lines 105-110): `0.0` on an empty sequence, else
`self.total / len(...)` — Python true division, modelled exactly in `ℚ` (the
claims' instances are exactly representable in binary floating point). -/
def MeteringData.average (m : MeteringData) : ℚ :=
  if m.interval_reading.isEmpty then 0
  else (m.total : ℚ) / (m.interval_reading.length : ℚ)

/-! ## Spec-side predicates

These follow the spec's words, independently of the code path, for the
exactly-when claims. -/

/-- `true` on `Except.error`. -/
def isFailure {ε α : Type} : Except ε α → Bool
  | .error _ => true
  | .ok _ => false

/-- Spec: a reading entry violates the schema when `date` or `value` is
missing, its date string is unparseable, or its value string is non-numeric. -/
def readingViolationB (r : RawReading) : Bool :=
  r.date.isNone || r.value.isNone
    || (match r.date with | some s => (parseIntervalDate s).isNone | none => false)
    || (match r.value with | some s => (pyInt s).isNone | none => false)

/-- Spec: the `reading_type` sub-object violates the schema when a required key
(`unit`, `measurement_kind`, `aggregate`) is missing or an enumeration value is
unrecognized. -/
def rtViolationB (rt : RawReadingType) : Bool :=
  rt.unit.isNone || rt.measurement_kind.isNone || rt.aggregate.isNone
    || (match rt.measurement_kind with
        | some s => (MeasurementKind.fromStr s).isNone
        | none => false)
    || (match rt.aggregate with
        | some s => (Aggregate.fromStr s).isNone
        | none => false)

/-- Spec (amended): a payload violates the schema when a required key is
missing — at top level other than `interval_reading`, within `reading_type`, or
within a reading entry — a date string is unparseable, a value string is
non-numeric, or an enumeration value is unrecognized. -/
def specViolationB (p : RawPayload) : Bool :=
  p.usage_point_id.isNone || p.start.isNone || p.«end».isNone || p.quality.isNone
    || p.reading_type.isNone
    || (match p.reading_type with | some rt => rtViolationB rt | none => false)
    || (match p.start with | some s => (pyDateFromIso s).isNone | none => false)
    || (match p.«end» with | some s => (pyDateFromIso s).isNone | none => false)
    || (p.interval_reading.getD []).any readingViolationB

/-- The claim's enumeration as stated: only a missing required TOP-LEVEL key
(other than `interval_reading`), an unparseable date string, a non-numeric
value string, or an unrecognized enumeration value. Missing keys nested inside
`reading_type` or a reading entry are not covered. -/
def specViolationStatedB (p : RawPayload) : Bool :=
  p.usage_point_id.isNone || p.start.isNone || p.«end».isNone || p.quality.isNone
    || p.reading_type.isNone
    || (match p.start with | some s => (pyDateFromIso s).isNone | none => false)
    || (match p.«end» with | some s => (pyDateFromIso s).isNone | none => false)
    || (p.interval_reading.getD []).any (fun r =>
        (match r.date with | some s => (parseIntervalDate s).isNone | none => false)
          || (match r.value with | some s => (pyInt s).isNone | none => false))
    || (match p.reading_type with
        | some rt =>
          (match rt.measurement_kind with
           | some s => (MeasurementKind.fromStr s).isNone
           | none => false)
            || (match rt.aggregate with
                | some s => (Aggregate.fromStr s).isNone
                | none => false)
        | none => false)

/-! ## Heap model for the defensive-copy accessor

Python lists are mutable heap objects; the `prms` property (client.py lines
134-137) returns `self._prms.copy()`. To state the frame property the heap is
made explicit: a store of list objects addressed by natural numbers. -/

/-- A store of Python list objects. -/
structure Heap where
  lists : List (List PyValue)

/-- Dereference a list object (`[]` for a dangling address, which valid clients
never hold). -/
def readRef (h : Heap) (r : Nat) : List PyValue := h.lists.getD r []

/-- In-place mutation of the list object at address `r` (covers `append`,
`clear`, index assignment, ...: the new contents are arbitrary). -/
def writeRef (h : Heap) (r : Nat) (v : List PyValue) : Heap := ⟨h.lists.set r v⟩

/-- A `LinkyClient` as stored on the heap: `self._prms` is a reference to a
list object, `self._prm` an immutable string value. -/
structure ClientObj where
  prmsRef : Nat
  prm : PyValue

/-- The `prms` property: allocate a fresh list object holding a copy of
`self._prms` and return its address (`return self._prms.copy()`). -/
def prmsProperty (h : Heap) (c : ClientObj) : Heap × Nat :=
  (⟨h.lists ++ [readRef h c.prmsRef]⟩, h.lists.length)

/-! ## Sample data (used by the witnesses) -/

/-- The spec's scenario payload: three daily readings of unit Wh. -/
def samplePayload : RawPayload where
  usage_point_id := some "12345678901234"
  start := some "2024-01-01"
  «end» := some "2024-01-04"
  quality := some "BRUT"
  reading_type := some ⟨some "Wh", some "energy", some "sum", some "P1D"⟩
  interval_reading := some
    [⟨some "11776", some "2024-01-01", none, none⟩,
     ⟨some "14401", some "2024-01-02", none, none⟩,
     ⟨some "12820", some "2024-01-03", none, none⟩]

/-- The record `samplePayload` maps to. -/
def sampleData : MeteringData where
  usage_point_id := "12345678901234"
  start := ⟨2024, 1, 1⟩
  «end» := ⟨2024, 1, 4⟩
  quality := "BRUT"
  reading_type := ⟨"Wh", .energy, .sum, some "P1D"⟩
  interval_reading :=
    [⟨11776, .onDate ⟨2024, 1, 1⟩, none, none⟩,
     ⟨14401, .onDate ⟨2024, 1, 2⟩, none, none⟩,
     ⟨12820, .onDate ⟨2024, 1, 3⟩, none, none⟩]

/-- A schema-valid payload with no `interval_reading` key. -/
def emptyIRPayload : RawPayload where
  usage_point_id := some "12345678901234"
  start := some "2024-01-01"
  «end» := some "2024-01-02"
  quality := some "BRUT"
  reading_type := some ⟨some "Wh", some "energy", some "sum", none⟩
  interval_reading := none

/-- The record `emptyIRPayload` maps to. -/
def emptyIRData : MeteringData where
  usage_point_id := "12345678901234"
  start := ⟨2024, 1, 1⟩
  «end» := ⟨2024, 1, 2⟩
  quality := "BRUT"
  reading_type := ⟨"Wh", .energy, .sum, none⟩
  interval_reading := []

/-- A payload that is schema-valid except that the nested `reading_type.unit`
key is absent. -/
def missingUnitPayload : RawPayload where
  usage_point_id := some "12345678901234"
  start := some "2024-01-01"
  «end» := some "2024-01-02"
  quality := some "BRUT"
  reading_type := some ⟨none, some "energy", some "sum", none⟩
  interval_reading := some []

/-! ## Failure characterization of the mapper -/

theorem extractPrms_ok_ne_nil (t : Token) (prms : List PyValue)
    (h : extractPrms t = .ok prms) : prms ≠ [] := by
  unfold extractPrms at h
  split at h
  · exact absurd h (by simp)
  · split at h
    · exact absurd h (by simp)
    · split at h <;>
        first
        | (unfold finishPrms at h
           split at h
           · exact absurd h (by simp)
           · rename_i hne
             cases h
             intro hnil
             simp [hnil] at hne)
        | exact absurd h (by simp)

@[simp]
theorem require_eq_ok_iff {α : Type} (o : Option α) (k : String) (a : α) :
    require o k = Except.ok a ↔ o = some a := by
  cases o <;> simp [require]

theorem intervalFromDict_isFailure (r : RawReading) :
    isFailure (IntervalReading.fromDict r) = readingViolationB r := by
  obtain ⟨v, d, il, mt⟩ := r
  cases d with
  | none =>
    cases v <;> simp [IntervalReading.fromDict, require, readingViolationB, isFailure]
  | some ds =>
    cases hpd : parseIntervalDate ds with
    | none =>
      cases v <;>
        simp [IntervalReading.fromDict, require, readingViolationB, isFailure, hpd]
    | some pd =>
      cases v with
      | none =>
        simp [IntervalReading.fromDict, require, readingViolationB, isFailure, hpd]
      | some vs =>
        cases hv : pyInt vs <;>
          simp [IntervalReading.fromDict, require, readingViolationB, isFailure, hpd, hv]

theorem mapExcept_isFailure {α β ε : Type} (f : α → Except ε β) (l : List α) :
    isFailure (mapExcept f l) = l.any fun a => isFailure (f a) := by
  induction l with
  | nil => rfl
  | cons a as ih =>
    simp only [mapExcept, List.any_cons]
    cases f a with
    | error e => simp [isFailure]
    | ok b =>
      cases hm : mapExcept f as with
      | error e =>
        have h2 : (as.any fun a => isFailure (f a)) = true := by rw [← ih, hm]; rfl
        show true = (false || as.any fun a => isFailure (f a))
        rw [h2]; rfl
      | ok bs =>
        have h2 : (as.any fun a => isFailure (f a)) = false := by rw [← ih, hm]; rfl
        show false = (false || as.any fun a => isFailure (f a))
        rw [h2]; rfl

theorem getReadingType_isFailure (rt : RawReadingType) :
    isFailure (getReadingType rt) = rtViolationB rt := by
  obtain ⟨u, mk, ag, mp⟩ := rt
  cases u with
  | none => simp [getReadingType, require, rtViolationB, isFailure]
  | some us =>
    cases mk with
    | none => simp [getReadingType, require, rtViolationB, isFailure]
    | some mks =>
      cases hmk : MeasurementKind.fromStr mks with
      | none => simp [getReadingType, require, rtViolationB, isFailure, hmk]
      | some mkv =>
        cases ag with
        | none => simp [getReadingType, require, rtViolationB, isFailure, hmk]
        | some ags =>
          cases hag : Aggregate.fromStr ags <;>
            simp [getReadingType, require, rtViolationB, isFailure, hmk, hag]

theorem fromDict_isFailure (p : RawPayload) :
    isFailure (MeteringData.fromDict p) = specViolationB p := by
  obtain ⟨upid, s, e, q, rt, ir⟩ := p
  cases rt with
  | none => simp [MeteringData.fromDict, require, specViolationB, isFailure]
  | some rtd =>
    cases hrt : getReadingType rtd with
    | error er =>
      have hv : rtViolationB rtd = true := by
        rw [← getReadingType_isFailure, hrt]; rfl
      simp [MeteringData.fromDict, require, specViolationB, isFailure, hrt, hv]
    | ok rtv =>
      have hv : rtViolationB rtd = false := by
        rw [← getReadingType_isFailure, hrt]; rfl
      have hfun : readingViolationB = fun r => isFailure (IntervalReading.fromDict r) :=
        funext fun r => (intervalFromDict_isFailure r).symm
      have hany : (ir.getD []).any readingViolationB
          = isFailure (mapExcept IntervalReading.fromDict (ir.getD [])) := by
        rw [hfun, mapExcept_isFailure]
      cases hmap : mapExcept IntervalReading.fromDict (ir.getD []) with
      | error er =>
        simp [MeteringData.fromDict, require, specViolationB, isFailure, hrt, hv,
          hmap, hany]
      | ok readings =>
        cases upid with
        | none =>
          simp [MeteringData.fromDict, require, specViolationB, isFailure, hrt, hv,
            hmap, hany]
        | some upids =>
          cases s with
          | none =>
            simp [MeteringData.fromDict, require, specViolationB, isFailure, hrt,
              hv, hmap, hany]
          | some ss =>
            cases hsd : pyDateFromIso ss with
            | none =>
              simp [MeteringData.fromDict, require, specViolationB, isFailure,
                hrt, hv, hmap, hany, hsd]
            | some sd =>
              cases e with
              | none =>
                simp [MeteringData.fromDict, require, specViolationB, isFailure,
                  hrt, hv, hmap, hany, hsd]
              | some es =>
                cases hed : pyDateFromIso es with
                | none =>
                  simp [MeteringData.fromDict, require, specViolationB, isFailure,
                    hrt, hv, hmap, hany, hsd, hed]
                | some ed =>
                  cases q <;>
                    simp [MeteringData.fromDict, require, specViolationB,
                      isFailure, hrt, hv, hmap, hany, hsd, hed]

theorem mapExcept_ok_length {α β ε : Type} (f : α → Except ε β) (l : List α)
    (bs : List β) (h : mapExcept f l = .ok bs) : bs.length = l.length := by
  induction l generalizing bs with
  | nil => cases h; rfl
  | cons a as ih =>
    unfold mapExcept at h
    cases hf : f a with
    | error e => rw [hf] at h; exact absurd h (by simp)
    | ok b =>
      rw [hf] at h
      cases hm : mapExcept f as with
      | error e => rw [hm] at h; exact absurd h (by simp)
      | ok cs =>
        rw [hm] at h
        cases h
        simp [ih cs hm]

theorem mapExcept_ok_get {α β ε : Type} (f : α → Except ε β) (l : List α)
    (bs : List β) (h : mapExcept f l = .ok bs) (i : Nat) (hi : i < l.length)
    (hb : i < bs.length) : f (l.get ⟨i, hi⟩) = .ok (bs.get ⟨i, hb⟩) := by
  induction l generalizing bs i with
  | nil => exact absurd hi (by simp)
  | cons a as ih =>
    unfold mapExcept at h
    cases hf : f a with
    | error e => rw [hf] at h; exact absurd h (by simp)
    | ok b =>
      rw [hf] at h
      cases hm : mapExcept f as with
      | error e => rw [hm] at h; exact absurd h (by simp)
      | ok cs =>
        rw [hm] at h
        cases h
        cases i with
        | zero => simpa using hf
        | succ j =>
          exact ih cs hm j (Nat.lt_of_succ_lt_succ hi) (Nat.lt_of_succ_lt_succ hb)

theorem fromDict_ok_inv (p : RawPayload) (m : MeteringData)
    (h : MeteringData.fromDict p = .ok m) :
    ∃ rtd rt readings upid startStr startD endStr endD q,
      p.reading_type = some rtd ∧ getReadingType rtd = .ok rt ∧
      mapExcept IntervalReading.fromDict (p.interval_reading.getD []) = .ok readings ∧
      p.usage_point_id = some upid ∧
      p.start = some startStr ∧ pyDateFromIso startStr = some startD ∧
      p.«end» = some endStr ∧ pyDateFromIso endStr = some endD ∧
      p.quality = some q ∧
      m = ⟨upid, startD, endD, q, rt, readings⟩ := by
  unfold MeteringData.fromDict at h
  split at h
  · exact absurd h (by simp)
  rename_i rtd hrtd
  split at h
  · exact absurd h (by simp)
  rename_i rt hrt
  split at h
  · exact absurd h (by simp)
  rename_i readings hmap
  split at h
  · exact absurd h (by simp)
  rename_i upid hupid
  split at h
  · exact absurd h (by simp)
  rename_i startStr hstart
  split at h
  · exact absurd h (by simp)
  rename_i startD hstartD
  split at h
  · exact absurd h (by simp)
  rename_i endStr hend
  split at h
  · exact absurd h (by simp)
  rename_i endD hendD
  split at h
  · exact absurd h (by simp)
  rename_i q hq
  cases h
  exact ⟨rtd, rt, readings, upid, startStr, startD, endStr, endD, q,
    (require_eq_ok_iff _ _ _).mp hrtd, hrt, hmap,
    (require_eq_ok_iff _ _ _).mp hupid,
    (require_eq_ok_iff _ _ _).mp hstart, hstartD,
    (require_eq_ok_iff _ _ _).mp hend, hendD,
    (require_eq_ok_iff _ _ _).mp hq, rfl⟩

theorem listGetD_append_lt {α : Type} (l l' : List α) (i : Nat) (d : α)
    (h : i < l.length) : (l ++ l').getD i d = l.getD i d := by
  induction l generalizing i with
  | nil => exact absurd h (by simp)
  | cons a as ih =>
    cases i with
    | zero => rfl
    | succ j => exact ih j (Nat.lt_of_succ_lt_succ h)

theorem listGetD_append_self {α : Type} (l : List α) (a : α) (d : α) :
    (l ++ [a]).getD l.length d = a := by
  induction l with
  | nil => rfl
  | cons x xs ih => exact ih

theorem listGetD_set_ne {α : Type} (l : List α) (i j : Nat) (v : α) (d : α)
    (h : i ≠ j) : (l.set i v).getD j d = l.getD j d := by
  induction l generalizing i j with
  | nil => rfl
  | cons a as ih =>
    cases i with
    | zero =>
      cases j with
      | zero => exact absurd rfl h
      | succ k => rfl
    | succ i' =>
      cases j with
      | zero => rfl
      | succ k => exact ih i' k fun he => h (by rw [he])

/-! ## Claims about the Token Scope Resolver -/

/-- C6 counterexample: a decodable token whose subject claim is the empty
string. The claim as stated covers it by "in every other case a scope is
produced" (the subject is present, is a string, and is not an empty sequence),
yet `_extract_prms` fails: `if not sub:` treats the empty string as falsy. -/
theorem claim_C6_counterexample :
    isFailure (extractPrms ⟨true, PyValue.vStr ""⟩) = true
      ∧ tokenInvalidStatedB ⟨true, PyValue.vStr ""⟩ = false :=
  ⟨rfl, rfl⟩

/-- C6 (amended): token scope resolution fails with InvalidToken exactly when
the payload cannot be decoded, the subject claim is absent or Python-falsy
(empty string, empty sequence, zero, false), or the subject value is truthy but
neither a string nor a list (a truthy list is accepted wholesale, whatever its
element types); in every other case a scope is produced. -/
theorem claim_C6_amended (t : Token) :
    isFailure (extractPrms t) = tokenInvalidB t := by
  obtain ⟨d, sub⟩ := t
  cases d with
  | false => cases sub <;> rfl
  | true =>
    cases sub with
    | vNone => rfl
    | vBool b => cases b <;> rfl
    | vInt n =>
      by_cases hn : n = 0 <;>
        simp [extractPrms, truthy, finishPrms, tokenInvalidB, isFailure, hn]
    | vStr s =>
      by_cases hs : s = "" <;>
        simp [extractPrms, truthy, finishPrms, tokenInvalidB, isFailure, hs]
    | vList l =>
      cases l <;> simp [extractPrms, truthy, finishPrms, tokenInvalidB, isFailure]

/-- C9: a present-but-empty-string subject claim fails with InvalidToken, on
the same branch as an absent subject claim (`if not sub:`), rather than
producing the one-element scope containing the empty string. -/
theorem claim_C9_empty_string_sub (t : Token) (hd : t.decodable = true)
    (hs : t.sub = PyValue.vStr "") :
    extractPrms t = .error TokenError.noSubClaim := by
  obtain ⟨d, sub⟩ := t
  cases hd
  cases hs
  rfl

theorem claim_C9_witness :
    extractPrms ⟨true, PyValue.vStr ""⟩ = .error TokenError.noSubClaim :=
  claim_C9_empty_string_sub ⟨true, PyValue.vStr ""⟩ rfl rfl

/-- C1: a (non-falsy) single-string subject claim resolves to the one-element
scope containing that string, which is also the active identifier when none is
requested; a non-empty list subject resolves to exactly that list — order
preserved and duplicates kept — with the first element active; and whenever a
scope is resolved at all, it is `[s]` for a string subject `s` and the claim's
list itself for a list subject. -/
theorem claim_C1_scope_shape :
    (∀ s : String, s ≠ "" →
      mkLinkyClient ⟨true, PyValue.vStr s⟩ none
        = .ok ⟨[PyValue.vStr s], PyValue.vStr s⟩)
    ∧ (∀ (l : List String) (h : l ≠ []),
      mkLinkyClient ⟨true, PyValue.vList (l.map PyValue.vStr)⟩ none
        = .ok ⟨l.map PyValue.vStr, PyValue.vStr (l.head h)⟩)
    ∧ (∀ (t : Token) (scope : List PyValue), extractPrms t = .ok scope →
        (∀ s, t.sub = PyValue.vStr s → scope = [PyValue.vStr s])
        ∧ (∀ l, t.sub = PyValue.vList l → scope = l)) := by
  refine ⟨fun s hs => ?_, fun l h => ?_, fun t scope hok => ⟨fun s hsub => ?_, fun l hsub => ?_⟩⟩
  · simp [mkLinkyClient, extractPrms, truthy, finishPrms, hs]
  · cases l with
    | nil => exact absurd rfl h
    | cons a as => simp [mkLinkyClient, extractPrms, truthy, finishPrms]
  · obtain ⟨d, sub⟩ := t
    cases hsub
    cases d with
    | false => exact absurd hok (by simp [extractPrms])
    | true =>
      by_cases hs : s = ""
      · exact absurd hok (by simp [extractPrms, truthy, hs])
      · have := hok
        simp [extractPrms, truthy, finishPrms, hs] at this
        exact this.symm
  · obtain ⟨d, sub⟩ := t
    cases hsub
    cases d with
    | false => exact absurd hok (by simp [extractPrms])
    | true =>
      cases l with
      | nil => exact absurd hok (by simp [extractPrms, truthy])
      | cons a as =>
        have := hok
        simp [extractPrms, truthy, finishPrms] at this
        exact this.symm

theorem claim_C1_witness :
    mkLinkyClient ⟨true, PyValue.vStr "12345678901234"⟩ none
      = .ok ⟨[PyValue.vStr "12345678901234"], PyValue.vStr "12345678901234"⟩
    ∧ mkLinkyClient
        ⟨true, PyValue.vList
          [PyValue.vStr "111", PyValue.vStr "222", PyValue.vStr "111"]⟩ none
      = .ok ⟨[PyValue.vStr "111", PyValue.vStr "222", PyValue.vStr "111"],
          PyValue.vStr "111"⟩ :=
  ⟨claim_C1_scope_shape.1 "12345678901234" (by decide),
   claim_C1_scope_shape.2.1 ["111", "222", "111"] (by simp)⟩

/-- C5: with the scope extracted from the token, an explicitly requested
identifier that is not a member makes construction fail with
`PRMAccessError` carrying exactly that identifier; a member request succeeds
and becomes the active identifier. -/
theorem claim_C5_scope_access (t : Token) (prms : List PyValue) (p : String)
    (hok : extractPrms t = .ok prms) :
    (listContainsStr prms p = false →
      mkLinkyClient t (some p) = .error (ClientError.prmAccess p))
    ∧ (listContainsStr prms p = true →
      mkLinkyClient t (some p) = .ok ⟨prms, PyValue.vStr p⟩) := by
  constructor <;> intro hc <;> simp [mkLinkyClient, hok, hc]

theorem claim_C5_witness :
    mkLinkyClient ⟨true, PyValue.vStr "12345678901234"⟩ (some "99999999999999")
      = .error (ClientError.prmAccess "99999999999999")
    ∧ mkLinkyClient
        ⟨true, PyValue.vList
          [PyValue.vStr "12345678901234", PyValue.vStr "98765432109876"]⟩
        (some "98765432109876")
      = .ok ⟨[PyValue.vStr "12345678901234", PyValue.vStr "98765432109876"],
          PyValue.vStr "98765432109876"⟩ :=
  ⟨(claim_C5_scope_access ⟨true, PyValue.vStr "12345678901234"⟩
      [PyValue.vStr "12345678901234"] "99999999999999" rfl).1 rfl,
   (claim_C5_scope_access
      ⟨true, PyValue.vList
        [PyValue.vStr "12345678901234", PyValue.vStr "98765432109876"]⟩
      [PyValue.vStr "12345678901234", PyValue.vStr "98765432109876"]
      "98765432109876" rfl).2 rfl⟩

/-! ## Claims about the Response Model Mapper -/

/-- C2 counterexample: a payload that is schema-valid except that the nested
`reading_type.unit` key is absent. None of the claim's enumerated failure
conditions hold (no required top-level key is missing, every date string
parses, every value string is numeric, both enumeration values are
recognized), yet `from_dict` fails (`reading_type_data["unit"]` raises). -/
theorem claim_C2_counterexample :
    isFailure (MeteringData.fromDict missingUnitPayload) = true
      ∧ specViolationStatedB missingUnitPayload = false :=
  ⟨rfl, rfl⟩

/-- C2 (amended): mapping a raw payload fails with a MalformedResponse
condition exactly when a required key is missing — at top level other than
`interval_reading`, within `reading_type` (`unit`, `measurement_kind`,
`aggregate`), or within a reading entry (`date`, `value`) — or a date string is
unparseable, a reading value string is non-numeric, or
`measurement_kind`/`aggregate` holds an unrecognized enumeration value; and an
absent or empty `interval_reading` key does not fail but yields an empty
reading sequence. -/
theorem claim_C2_amended (p : RawPayload) :
    isFailure (MeteringData.fromDict p) = specViolationB p
    ∧ (∀ m, MeteringData.fromDict p = .ok m →
        (p.interval_reading = none ∨ p.interval_reading = some []) →
        m.interval_reading = []) := by
  refine ⟨fromDict_isFailure p, fun m h hir => ?_⟩
  obtain ⟨rtd, rt, readings, upid, ss, sd, es, ed, q, h1, h2, h3, h4, h5, h6,
    h7, h8, h9, rfl⟩ := fromDict_ok_inv p m h
  rcases hir with hir | hir <;> rw [hir] at h3 <;>
    · simp [mapExcept] at h3
      exact h3

theorem claim_C2_witness :
    (isFailure (MeteringData.fromDict emptyIRPayload)
      = specViolationB emptyIRPayload)
    ∧ emptyIRData.interval_reading = [] :=
  ⟨(claim_C2_amended emptyIRPayload).1,
   (claim_C2_amended emptyIRPayload).2 emptyIRData rfl (Or.inl rfl)⟩

/-- C3: a reading date string without a `T` or space parses to a date-only
value; one containing a `T` or a space parses (when it parses at all) to a full
date-time; and the three example strings parse as the claim states, the two
date-time forms agreeing on hour 14 and minute 30. -/
theorem claim_C3_date_rule :
    (∀ (s : String) (r : DateOrDateTime),
      s.toList.contains 'T' = false → s.toList.contains ' ' = false →
      parseIntervalDate s = some r → ∃ d, r = DateOrDateTime.onDate d)
    ∧ (∀ (s : String) (r : DateOrDateTime),
      (s.toList.contains 'T' || s.toList.contains ' ') = true →
      parseIntervalDate s = some r → ∃ t, r = DateOrDateTime.onDateTime t)
    ∧ parseIntervalDate "2024-01-15" = some (DateOrDateTime.onDate ⟨2024, 1, 15⟩)
    ∧ parseIntervalDate "2024-01-15T14:30:00"
        = some (DateOrDateTime.onDateTime ⟨2024, 1, 15, 14, 30, 0⟩)
    ∧ parseIntervalDate "2024-01-15 14:30:00"
        = some (DateOrDateTime.onDateTime ⟨2024, 1, 15, 14, 30, 0⟩) := by
  refine ⟨fun s r hT hS hp => ?_, fun s r hTS hp => ?_, rfl, rfl, rfl⟩
  · unfold parseIntervalDate at hp
    rw [hT, hS] at hp
    simp only [Bool.or_false, if_neg Bool.false_ne_true] at hp
    cases hpd : parseDateChars s.toList with
    | none => rw [hpd] at hp; exact absurd hp (by simp)
    | some d =>
      rw [hpd] at hp
      simp at hp
      exact ⟨d, hp.symm⟩
  · unfold parseIntervalDate at hp
    rw [hTS] at hp
    simp only [if_pos rfl] at hp
    cases hpd : parseDateTimeChars (s.toList.map fun c => if c == ' ' then 'T' else c) with
    | none => rw [hpd] at hp; exact absurd hp (by simp)
    | some t =>
      rw [hpd] at hp
      simp at hp
      exact ⟨t, hp.symm⟩

theorem claim_C3_witness :
    (∃ d, DateOrDateTime.onDate ⟨2024, 1, 15⟩ = DateOrDateTime.onDate d)
    ∧ (∃ t, DateOrDateTime.onDateTime ⟨2024, 1, 15, 14, 30, 0⟩
        = DateOrDateTime.onDateTime t) :=
  ⟨claim_C3_date_rule.1 "2024-01-15" (DateOrDateTime.onDate ⟨2024, 1, 15⟩)
      rfl rfl rfl,
   claim_C3_date_rule.2.1 "2024-01-15 14:30:00"
      (DateOrDateTime.onDateTime ⟨2024, 1, 15, 14, 30, 0⟩) rfl rfl⟩

/-- C4: `total` is the arithmetic sum of the reading values (so 0 on an empty
sequence) and `average` is `total / count`, with exactly 0 on an empty
sequence — a plain result, never an error and never NaN. A record whose values
are 11776, 14401, 12820 has total 38997 and average 12999. -/
theorem claim_C4_total_average :
    (∀ m : MeteringData,
      m.total = (m.interval_reading.map IntervalReading.value).sum
      ∧ (m.interval_reading = [] → m.total = 0 ∧ m.average = 0)
      ∧ (m.interval_reading ≠ [] →
          m.average = (m.total : ℚ) / (m.interval_reading.length : ℚ)))
    ∧ (∀ m : MeteringData,
      m.interval_reading.map IntervalReading.value = [11776, 14401, 12820] →
      m.total = 38997 ∧ m.average = 12999) := by
  constructor
  · intro m
    refine ⟨rfl, fun he => ?_, fun hne => ?_⟩
    · constructor
      · simp [MeteringData.total, he]
      · simp [MeteringData.average, he]
    · have : m.interval_reading.isEmpty = false := by
        cases hl : m.interval_reading with
        | nil => exact absurd hl hne
        | cons a as => rfl
      simp [MeteringData.average, this]
  · intro m hv
    have hlen : m.interval_reading.length = 3 := by
      have := congrArg List.length hv
      simpa using this
    have htot : m.total = 38997 := by
      simp [MeteringData.total, hv]
    refine ⟨htot, ?_⟩
    have hne : m.interval_reading.isEmpty = false := by
      cases hl : m.interval_reading with
      | nil => rw [hl] at hv; exact absurd hv (by simp)
      | cons a as => rfl
    rw [MeteringData.average, if_neg (by simp [hne]), htot, hlen]
    norm_num

theorem claim_C4_witness :
    sampleData.total = 38997 ∧ sampleData.average = 12999 :=
  claim_C4_total_average.2 sampleData rfl

/-- C7: for every payload the mapper accepts, reading back `usage_point_id`
and `quality` yields the source strings, and `start`/`end` are the calendar
dates parsed from the source strings. -/
theorem claim_C7_roundtrip (p : RawPayload) (m : MeteringData)
    (h : MeteringData.fromDict p = .ok m) :
    p.usage_point_id = some m.usage_point_id
    ∧ p.quality = some m.quality
    ∧ (∃ s, p.start = some s ∧ pyDateFromIso s = some m.start)
    ∧ (∃ s, p.«end» = some s ∧ pyDateFromIso s = some m.«end») := by
  obtain ⟨rtd, rt, readings, upid, ss, sd, es, ed, q, h1, h2, h3, h4, h5, h6,
    h7, h8, h9, rfl⟩ := fromDict_ok_inv p m h
  exact ⟨h4, h9, ⟨ss, h5, h6⟩, ⟨es, h7, h8⟩⟩

theorem claim_C7_witness :
    samplePayload.usage_point_id = some sampleData.usage_point_id
    ∧ samplePayload.quality = some sampleData.quality
    ∧ (∃ s, samplePayload.start = some s ∧ pyDateFromIso s = some sampleData.start)
    ∧ (∃ s, samplePayload.«end» = some s
        ∧ pyDateFromIso s = some sampleData.«end») :=
  claim_C7_roundtrip samplePayload sampleData rfl

/-- C10: for every accepted payload with a present `interval_reading` list,
the record's reading sequence has the same length, and its i-th reading is the
mapping of the i-th source entry — source order preserved, nothing dropped,
deduplicated or reordered. -/
theorem claim_C10_order (p : RawPayload) (rs : List RawReading)
    (m : MeteringData) (h : MeteringData.fromDict p = .ok m)
    (hir : p.interval_reading = some rs) :
    m.interval_reading.length = rs.length
    ∧ ∀ (i : Nat) (hi : i < rs.length) (hm : i < m.interval_reading.length),
        IntervalReading.fromDict (rs.get ⟨i, hi⟩)
          = .ok (m.interval_reading.get ⟨i, hm⟩) := by
  obtain ⟨rtd, rt, readings, upid, ss, sd, es, ed, q, h1, h2, h3, h4, h5, h6,
    h7, h8, h9, rfl⟩ := fromDict_ok_inv p m h
  rw [hir] at h3
  simp only [Option.getD_some] at h3
  exact ⟨mapExcept_ok_length _ _ _ h3,
    fun i hi hm => mapExcept_ok_get _ _ _ h3 i hi hm⟩

theorem claim_C10_witness :
    sampleData.interval_reading.length
      = [(⟨some "11776", some "2024-01-01", none, none⟩ : RawReading),
         ⟨some "14401", some "2024-01-02", none, none⟩,
         ⟨some "12820", some "2024-01-03", none, none⟩].length
    ∧ IntervalReading.fromDict ⟨some "14401", some "2024-01-02", none, none⟩
        = .ok (sampleData.interval_reading.get ⟨1, by decide⟩) := by
  have h := claim_C10_order samplePayload
    [⟨some "11776", some "2024-01-01", none, none⟩,
     ⟨some "14401", some "2024-01-02", none, none⟩,
     ⟨some "12820", some "2024-01-03", none, none⟩]
    sampleData rfl rfl
  exact ⟨h.1, h.2 1 (by decide) (by decide)⟩

/-! ## Claim about the defensive-copy accessor -/

/-- C8: the `prms` property returns a defensive copy. For any heap and any
client whose internal list reference is valid: the returned object is a fresh
address distinct from the internal one; it holds the same contents; and after
any in-place mutation of the returned object, the internal scope list is
unchanged and a subsequent `prms` call still returns the original contents.
The active identifier (`self._prm`) is an immutable string held by value in
`ClientObj`, so no list mutation can touch it. -/
theorem claim_C8_defensive_copy (h : Heap) (c : ClientObj)
    (hv : c.prmsRef < h.lists.length) :
    (prmsProperty h c).2 ≠ c.prmsRef
    ∧ readRef (prmsProperty h c).1 (prmsProperty h c).2 = readRef h c.prmsRef
    ∧ ∀ v : List PyValue,
        readRef (writeRef (prmsProperty h c).1 (prmsProperty h c).2 v) c.prmsRef
          = readRef h c.prmsRef
        ∧ readRef
            (prmsProperty
              (writeRef (prmsProperty h c).1 (prmsProperty h c).2 v) c).1
            (prmsProperty
              (writeRef (prmsProperty h c).1 (prmsProperty h c).2 v) c).2
          = readRef h c.prmsRef := by
  have hfresh : (prmsProperty h c).2 ≠ c.prmsRef := by
    intro he
    rw [prmsProperty] at he
    omega
  have hread : ∀ (h' : Heap) (r : Nat),
      readRef ⟨h'.lists ++ [readRef h' r]⟩ h'.lists.length = readRef h' r := by
    intro h' r
    exact listGetD_append_self h'.lists (readRef h' r) []
  refine ⟨hfresh, hread h c.prmsRef, fun v => ?_⟩
  have hint : readRef
      (writeRef (prmsProperty h c).1 (prmsProperty h c).2 v) c.prmsRef
      = readRef h c.prmsRef := by
    show ((h.lists ++ [readRef h c.prmsRef]).set h.lists.length v).getD c.prmsRef []
      = h.lists.getD c.prmsRef []
    have hfresh2 : h.lists.length ≠ c.prmsRef := hfresh
    rw [listGetD_set_ne _ _ _ _ _ hfresh2]
    exact listGetD_append_lt _ _ _ _ hv
  exact ⟨hint,
    (hread (writeRef (prmsProperty h c).1 (prmsProperty h c).2 v)
      c.prmsRef).trans hint⟩

theorem claim_C8_witness :
    (prmsProperty ⟨[[PyValue.vStr "12345678901234"]]⟩
      ⟨0, PyValue.vStr "12345678901234"⟩).2 ≠ 0
    ∧ readRef
        (writeRef
          (prmsProperty ⟨[[PyValue.vStr "12345678901234"]]⟩
            ⟨0, PyValue.vStr "12345678901234"⟩).1
          (prmsProperty ⟨[[PyValue.vStr "12345678901234"]]⟩
            ⟨0, PyValue.vStr "12345678901234"⟩).2
          []) 0
      = readRef ⟨[[PyValue.vStr "12345678901234"]]⟩ 0 :=
  ⟨(claim_C8_defensive_copy ⟨[[PyValue.vStr "12345678901234"]]⟩
      ⟨0, PyValue.vStr "12345678901234"⟩ (by decide)).1,
   ((claim_C8_defensive_copy ⟨[[PyValue.vStr "12345678901234"]]⟩
      ⟨0, PyValue.vStr "12345678901234"⟩ (by decide)).2.2 []).1⟩

end PyLinky
